import Mathlib

/-!
Shallow embedding of `src/protocol_insolvency_query.py`, a Glider query that
detects protocol-insolvency vulnerabilities (unchecked withdrawals/mints) in
smart contracts.

The query consumes a host program representation (functions, instructions,
argument expressions, backward dataflow points).  Host calls that the Python
code guards with `try/except` are embedded as `Except Unit` values; the
`hasattr` probe on the taint capability is embedded as an `Option`.  The
heuristic functions (`lacks_reserve_check`, `has_global_df_in_amount`,
`is_protected_by_safe_wrapper`, `has_post_transfer_revert_guard`,
`is_amount_constant_zero`) and the pipeline `query` are translated line by
line from the source.
-/

deriving instance DecidableEq for Except

namespace ProtocolInsolvency

/-- Python substring test `needle in hay`, on the underlying character list. -/
def containsSub (hay needle : String) : Bool :=
  (List.range (hay.toList.length + 1)).any
    (fun i => needle.toList.isPrefixOf (hay.toList.drop i))

/-- Python `str.lower()`, character by character. -/
def toLowerStr (s : String) : String := String.mk (s.data.map Char.toLower)

/-- Python `str.strip()`: surrounding whitespace removed. -/
def trimStr (s : String) : String :=
  String.mk
    (((s.data.dropWhile Char.isWhitespace).reverse.dropWhile
        Char.isWhitespace).reverse)

/-- A node visited by a backward dataflow trace.  Its `source_code()` call can
raise in the host, hence `Except`. -/
structure DFPoint where
  source_code : Except Unit String
deriving DecidableEq

/-- An argument expression of a call instruction.  `source_code` and
`backward_df` are host calls that may raise; `has_global_df` is `none` when
the host object lacks the capability (`hasattr` fails), `some (.error ())`
when the call raises, and `some (.ok b)` when the host reports taint status
`b`. -/
structure Expr where
  source_code : Except Unit String
  backward_df : Except Unit (List DFPoint)
  has_global_df : Option (Except Unit Bool)
deriving DecidableEq

/-- The projection of a successor instruction that
`has_post_transfer_revert_guard` inspects.  Both reads are host calls that
may raise: `callee_names()` is called inside the function's outer `try`, so
a raise there makes the whole function return `False`; `source_code()` is
called inside an inner `try`, so a raise there only skips the successor. -/
structure Succ where
  callee_names : Except Unit (List String)
  source_code : Except Unit String
deriving DecidableEq

/-- Function visibility as exposed by the host program representation. -/
inductive Visibility
  | Public
  | External
  | Internal
  | Private
deriving DecidableEq

/-- Metadata of a function as exposed by the host: name, visibility,
mutability flags, modifier names and declared parameter types. -/
structure FunMeta where
  name : String
  visibility : Visibility
  is_pure : Bool
  is_view : Bool
  modifier_names : List String
  arg_types : List String
deriving DecidableEq

/-- A call instruction.  `get_args`, `get_parent` and `next_instructions` are
host calls that may raise; `callee_names` is read without any guard by the
outflow filter in `query`, so it is embedded as a plain field. -/
structure Instruction where
  callee_names : List String
  get_args : Except Unit (List Expr)
  get_parent : Except Unit (Option FunMeta)
  next_instructions : Except Unit (List Succ)
deriving DecidableEq

/-- A contract's function set: each function's metadata together with its
instructions in control order. -/
structure Func extends FunMeta where
  instructions : List Instruction
deriving DecidableEq

/-- A contract: the full function set the host enumerates. -/
structure Contract where
  functions : List Func
deriving DecidableEq

/-- The reserve-checking vocabulary of `lacks_reserve_check`. -/
def reserve_check_patterns : List String :=
  ["balanceOf", "getBalance", "available", "liquidity", "reserves",
   "totalAssets", "getReserves"]

/-- The loop body of `lacks_reserve_check` over the visited dataflow points:
a point whose source text is unreadable is skipped; a point whose lowercased
text contains a reserve pattern and whose original text contains
`address(this)` or `this` makes the function return `false` immediately;
if the scan completes the function returns `true`. -/
def reserve_df_scan : List DFPoint → Bool
  | [] => true
  | pt :: rest =>
    match pt.source_code with
    | Except.error _ => reserve_df_scan rest
    | Except.ok src =>
      if (reserve_check_patterns.any
            (fun pat => containsSub (toLowerStr src) (toLowerStr pat))) &&
          (containsSub src "address(this)" || containsSub src "this") then
        false
      else
        reserve_df_scan rest

/-- Translation of `lacks_reserve_check` (src lines 109-188). -/
def lacks_reserve_check (instruction : Instruction) : Bool :=
  match instruction.get_args with
  | Except.error _ => true
  | Except.ok transfer_args =>
    match transfer_args.getLast? with
    | none => false
    | some amount_arg =>
      match amount_arg.backward_df with
      | Except.error _ => true
      | Except.ok backward_flow => reserve_df_scan backward_flow

/-- Translation of `has_global_df_in_amount` (src lines 191-234). -/
def has_global_df_in_amount (instruction : Instruction) : Bool :=
  match instruction.get_args with
  | Except.error _ => true
  | Except.ok transfer_args =>
    match transfer_args.getLast? with
    | none => false
    | some amount_arg =>
      match amount_arg.has_global_df with
      | none => true
      | some (Except.error _) => true
      | some (Except.ok b) => b

/-- The safe-wrapper name vocabulary of `is_protected_by_safe_wrapper`. -/
def safe_patterns : List String :=
  ["safetransfer", "safewithdraw", "safemint", "safeburn"]

/-- Translation of `is_protected_by_safe_wrapper` (src lines 237-282). -/
def is_protected_by_safe_wrapper (instruction : Instruction) : Bool :=
  match instruction.get_parent with
  | Except.error _ => false
  | Except.ok none => false
  | Except.ok (some parent_function) =>
    safe_patterns.any
      (fun pat => containsSub (toLowerStr parent_function.name) pat)

/-- The loop of `has_post_transfer_revert_guard` over the successor
instructions: reading a successor's callee names raises into the outer
`try`, so the whole scan returns `false` (finding kept); a successor that
calls `require` or `assert` and whose source text — read inside an inner
`try`, a raise there only skipping the successor — lowercased contains
`success` or `ok` returns `true`; otherwise the loop continues and an
exhausted loop returns `false`. -/
def revert_guard_scan : List Succ → Bool
  | [] => false
  | next_instr :: rest =>
    match next_instr.callee_names with
    | Except.error _ => false
    | Except.ok instr_callees =>
      if instr_callees.contains "require" ||
          instr_callees.contains "assert" then
        match next_instr.source_code with
        | Except.error _ => revert_guard_scan rest
        | Except.ok source =>
          if containsSub (toLowerStr source) "success" ||
              containsSub (toLowerStr source) "ok" then
            true
          else
            revert_guard_scan rest
      else
        revert_guard_scan rest

/-- Translation of `has_post_transfer_revert_guard` (src lines 285-339). -/
def has_post_transfer_revert_guard (instruction : Instruction) : Bool :=
  match instruction.next_instructions with
  | Except.error _ => false
  | Except.ok next_instructions =>
    revert_guard_scan next_instructions

/-- Translation of `is_amount_constant_zero` (src lines 342-384). -/
def is_amount_constant_zero (instruction : Instruction) : Bool :=
  match instruction.get_args with
  | Except.error _ => false
  | Except.ok transfer_args =>
    match transfer_args.getLast? with
    | none => false
    | some amount_arg =>
      match amount_arg.source_code with
      | Except.error _ => false
      | Except.ok source =>
        trimStr source == "0" || containsSub source "uint256).max"

/-- The host method-property tags used by the candidate selection chain. -/
inductive MethodProp
  | PUBLIC
  | EXTERNAL
  | IS_PURE
  | IS_VIEW
deriving DecidableEq

/-- Whether a function carries a host method property. -/
def hasProp (f : Func) : MethodProp → Bool
  | MethodProp.PUBLIC => f.visibility == Visibility.Public
  | MethodProp.EXTERNAL => f.visibility == Visibility.External
  | MethodProp.IS_PURE => f.is_pure
  | MethodProp.IS_VIEW => f.is_view

/-- Modelled from the spec: the host combinator `with_one_property` keeps the
functions carrying at least one of the given properties (the query execution
engine is an external collaborator, §6 of the spec). -/
def with_one_property (fs : List Func) (props : List MethodProp) : List Func :=
  fs.filter (fun f => props.any (hasProp f))

/-- Modelled from the spec: the host combinator `without_properties` keeps the
functions carrying none of the given properties. -/
def without_properties (fs : List Func) (props : List MethodProp) : List Func :=
  fs.filter (fun f => !props.any (hasProp f))

/-- Modelled from the spec: the host combinator `without_modifier_names` keeps
the functions carrying none of the given modifier names. -/
def without_modifier_names (fs : List Func) (names : List String) : List Func :=
  fs.filter (fun f => !f.modifier_names.any (fun m => names.contains m))

/-- Modelled from the spec: the host combinator `with_one_of_the_names` keeps
the functions whose name matches one of the configured vocabulary. -/
def with_one_of_the_names (fs : List Func) (names : List String) : List Func :=
  fs.filter (fun f => names.contains f.name)

/-- Modelled from the spec: the host combinator `with_arg_type` keeps the
functions declaring at least one parameter of the given type. -/
def with_arg_type (fs : List Func) (t : String) : List Func :=
  fs.filter (fun f => f.arg_types.contains t)

/-- Modelled from the spec: `exec (n)` truncates, rather than fails, past the
bound `n` (§6: bounded execution of a filter/selection step). -/
def execCap (l : List α) (n : Nat) : List α := l.take n

/-- Modelled from the spec: `.instructions()` enumerates each candidate
function's instructions in control order. -/
def instructionsOf (fs : List Func) : List Instruction :=
  fs.flatMap Func.instructions

/-- The already-guarded modifier set excluded by candidate selection. -/
def guard_modifier_names : List String :=
  ["onlyOwner", "nonReentrant", "whenNotPaused", "lock"]

/-- The withdrawal/mint/redeem name vocabulary of candidate selection. -/
def candidate_name_vocabulary : List String :=
  ["withdraw", "redeem", "burn", "transferFrom", "safeWithdraw",
   "exitMarket", "borrow", "redeemShares", "unstake", "claim",
   "liquidate", "seize", "exit", "removeLiquidity"]

/-- Step 1 of `query` (src lines 50-64): candidate withdrawal/mint/redeem
functions, with the candidate cap a parameter (500 at the call site). -/
def candidate_functions (c : Contract) (capC : Nat) : List Func :=
  execCap
    (with_arg_type
      (with_one_of_the_names
        (without_modifier_names
          (without_properties
            (with_one_property c.functions
              [MethodProp.PUBLIC, MethodProp.EXTERNAL])
            [MethodProp.IS_PURE, MethodProp.IS_VIEW])
          guard_modifier_names)
        candidate_name_vocabulary)
      "uint256")
    capC

/-- The outflow callee vocabulary of step 2 of `query`. -/
def outflow_callees : List String :=
  ["transfer", "burn", "transferFrom", "safeTransferFrom", "_burn"]

/-- Step 2's outflow filter (src lines 74-80). -/
def is_outflow (ins : Instruction) : Bool :=
  outflow_callees.any (fun callee => ins.callee_names.contains callee)

/-- The pipeline of `query` (src lines 26-106) with the two truncation caps
as parameters (500 and 1000 at the call sites). -/
def queryWith (c : Contract) (capC capI : Nat) : List Instruction :=
  let transfer_and_burn_instructions :=
    (execCap (instructionsOf (candidate_functions c capC)) capI).filter
      is_outflow
  let vulnerable_instructions :=
    transfer_and_burn_instructions.filter (fun ins =>
      lacks_reserve_check ins && has_global_df_in_amount ins)
  vulnerable_instructions.filter (fun ins =>
    !is_protected_by_safe_wrapper ins &&
    !has_post_transfer_revert_guard ins &&
    !is_amount_constant_zero ins)

/-- Translation of `query` (src lines 26-106): the pipeline at the source's
caps, 500 candidate functions and 1000 instructions. -/
def query (c : Contract) : List Instruction := queryWith c 500 1000

/-! ## Analysis helpers -/

/-- The condition the `lacks_reserve_check` loop tests on a single dataflow
point: readable source text whose lowercased form contains a reserve
pattern and whose original form contains `address(this)` or `this`. -/
def reserve_point_hit (pt : DFPoint) : Bool :=
  match pt.source_code with
  | Except.error _ => false
  | Except.ok src =>
    (reserve_check_patterns.any
      (fun pat => containsSub (toLowerStr src) (toLowerStr pat))) &&
    (containsSub src "address(this)" || containsSub src "this")

/-- A character that can be part of an identifier. -/
def isIdentChar (c : Char) : Bool := c.isAlphanum || c == '_'

/-- Modelled from the spec: a self-reference is "the contract's own address
or an equivalent self-identifier", read as the text `address(this)` or the
Solidity self-identifier `this` occurring as a standalone token (not as a
fragment of a longer identifier, which would name an arbitrary entity). -/
def spec_self_reference (s : String) : Bool :=
  containsSub s "address(this)" ||
  (List.range s.toList.length).any (fun i =>
    ((String.toList "this").isPrefixOf (s.toList.drop i)) &&
    (match i with
     | 0 => true
     | Nat.succ j =>
       match (s.toList)[j]? with
       | some c => !isIdentChar c
       | none => true) &&
    (match (s.toList)[i + 4]? with
     | some c => !isIdentChar c
     | none => true))

/-- Modelled from the spec: "a point counts as a valid reserve check if its
source text contains one of a configured vocabulary ... and also contains a
self-reference (the contract's own address or an equivalent
self-identifier)". -/
def spec_valid_reserve_check (s : String) : Bool :=
  (reserve_check_patterns.any
    (fun pat => containsSub (toLowerStr s) (toLowerStr pat))) &&
  spec_self_reference s

/-- Modelled from the spec: a visited dataflow point qualifying as a valid
reserve check (unreadable points cannot qualify). -/
def spec_qualifying_point (pt : DFPoint) : Bool :=
  match pt.source_code with
  | Except.error _ => false
  | Except.ok s => spec_valid_reserve_check s

/-- `l1` is an initial segment of `l2`. -/
def listPre (l1 l2 : List α) : Prop := ∃ t, l1 ++ t = l2

/-! ## Concrete program elements used by witnesses and counterexamples -/

/-- A dataflow point whose text mentions a reserve pattern and an arbitrary
identifier that merely contains the letters `this`. -/
def ptC1 : DFPoint := ⟨Except.ok "getBalance(smoothish)"⟩

/-- An amount expression whose backward trace visits only `ptC1`. -/
def amtC1 : Expr := ⟨Except.ok "amount", Except.ok [ptC1], some (Except.ok true)⟩

/-- A transfer instruction whose amount traces to `ptC1`. -/
def insC1 : Instruction :=
  ⟨["transfer"], Except.ok [amtC1], Except.ok none, Except.ok []⟩

/-- A dataflow point holding a genuine self-balance reserve check. -/
def ptC1w : DFPoint := ⟨Except.ok "require(token.balanceOf(address(this)) >= amount)"⟩

/-- An amount expression whose backward trace visits only `ptC1w`. -/
def amtC1w : Expr := ⟨Except.ok "amount", Except.ok [ptC1w], some (Except.ok true)⟩

/-- A transfer instruction whose amount traces to `ptC1w`. -/
def insC1w : Instruction :=
  ⟨["transfer"], Except.ok [amtC1w], Except.ok none, Except.ok []⟩

/-- An instruction with zero arguments. -/
def insC2 : Instruction :=
  ⟨["transfer"], Except.ok [], Except.ok none, Except.ok []⟩

/-- A candidate function containing the zero-argument instruction. -/
def funcC2 : Func :=
  ⟨⟨"withdraw", Visibility.Public, false, false, [], ["uint256"]⟩, [insC2]⟩

/-- A contract containing `funcC2`. -/
def ctrC2 : Contract := ⟨[funcC2]⟩

/-- An instruction whose `get_args` raises. -/
def insC3a : Instruction :=
  ⟨["transfer"], Except.error (), Except.ok none, Except.ok []⟩

/-- An amount expression whose backward trace raises. -/
def amtC3 : Expr := ⟨Except.ok "amount", Except.error (), some (Except.ok true)⟩

/-- An instruction whose amount's backward trace raises. -/
def insC3b : Instruction :=
  ⟨["transfer"], Except.ok [amtC3], Except.ok none, Except.ok []⟩

/-- A readable dataflow point with no reserve evidence. -/
def ptC3ok : DFPoint := ⟨Except.ok "amount = shares * rate"⟩

/-- A dataflow point whose `source_code()` raises. -/
def ptC3bad : DFPoint := ⟨Except.error ()⟩

/-- An amount expression whose taint capability is absent. -/
def amtC4n : Expr := ⟨Except.ok "amount", Except.ok [], none⟩

/-- An amount expression whose taint query raises. -/
def amtC4e : Expr := ⟨Except.ok "amount", Except.ok [], some (Except.error ())⟩

/-- An amount expression affirmatively reported as constant-derived. -/
def amtC4f : Expr := ⟨Except.ok "amount", Except.ok [], some (Except.ok false)⟩

/-- An amount expression reported as reachable from external input. -/
def amtC4t : Expr := ⟨Except.ok "amount", Except.ok [], some (Except.ok true)⟩

/-- An instruction whose amount's taint capability is absent. -/
def insC4n : Instruction :=
  ⟨["transfer"], Except.ok [amtC4n], Except.ok none, Except.ok []⟩

/-- An instruction whose amount's taint query raises. -/
def insC4e : Instruction :=
  ⟨["transfer"], Except.ok [amtC4e], Except.ok none, Except.ok []⟩

/-- An instruction whose amount is affirmatively constant-derived. -/
def insC4f : Instruction :=
  ⟨["transfer"], Except.ok [amtC4f], Except.ok none, Except.ok []⟩

/-- An instruction whose amount is externally reachable. -/
def insC4t : Instruction :=
  ⟨["transfer"], Except.ok [amtC4t], Except.ok none, Except.ok []⟩

/-- An amount expression with literal source text `0`. -/
def amtC5 : Expr := ⟨Except.ok "0", Except.ok [], some (Except.ok true)⟩

/-- A transfer instruction whose amount is the literal `0`. -/
def insC5 : Instruction :=
  ⟨["transfer"], Except.ok [amtC5], Except.ok none, Except.ok []⟩

/-- A contract containing the zero-amount transfer. -/
def ctrC5 : Contract :=
  ⟨[⟨⟨"withdraw", Visibility.Public, false, false, [], ["uint256"]⟩, [insC5]⟩]⟩

/-- An amount expression whose literal cannot be read. -/
def amtC5e : Expr := ⟨Except.error (), Except.ok [], some (Except.ok true)⟩

/-- A transfer instruction whose amount literal cannot be read. -/
def insC5e : Instruction :=
  ⟨["transfer"], Except.ok [amtC5e], Except.ok none, Except.ok []⟩

/-- The metadata of a safe-wrapper function. -/
def metaC6 : FunMeta :=
  ⟨"safeTransferHelper", Visibility.Public, false, false, [], ["uint256"]⟩

/-- An instruction owned by the safe-wrapper function. -/
def insC6 : Instruction :=
  ⟨["transfer"], Except.ok [amtC4t], Except.ok (some metaC6), Except.ok []⟩

/-- A contract containing the safe-wrapper instruction. -/
def ctrC6 : Contract := ⟨[⟨metaC6, [insC6]⟩]⟩

/-- An instruction whose owning function is `None`. -/
def insC6n : Instruction :=
  ⟨["transfer"], Except.ok [amtC4t], Except.ok none, Except.ok []⟩

/-- An instruction whose `get_parent` raises. -/
def insC6e : Instruction :=
  ⟨["transfer"], Except.ok [amtC4t], Except.error (), Except.ok []⟩

/-- An unguarded, externally-influenced transfer instruction that survives
every stage of the pipeline. -/
def insC7 : Instruction :=
  ⟨["transfer"], Except.ok [amtC4t], Except.ok none, Except.ok []⟩

/-- A contract whose single candidate function contains `insC7`. -/
def ctrC7 : Contract :=
  ⟨[⟨⟨"withdraw", Visibility.Public, false, false, [], ["uint256"]⟩, [insC7]⟩]⟩

/-- The per-successor condition of the claimed biconditional: callee names
readable and including `require` or `assert`, and readable source text
whose lowercased form contains `success` or `ok`. -/
def claimed_guard_succ (nx : Succ) : Bool :=
  (match nx.callee_names with
   | Except.error _ => false
   | Except.ok cs => cs.contains "require" || cs.contains "assert") &&
  (match nx.source_code with
   | Except.error _ => false
   | Except.ok s =>
     containsSub (toLowerStr s) "success" || containsSub (toLowerStr s) "ok")

/-- A successor whose callee names can be read (the scan walks past it
without aborting unless it stops there). -/
def succ_names_readable (p : Succ) : Prop :=
  ∃ cs, p.callee_names = Except.ok cs

/-- A successor at which the scan stops with `true`: readable callee names
including `require` or `assert`, and readable source text whose lowercased
form contains `success` or `ok`. -/
def succ_guard_stop (nx : Succ) : Prop :=
  (∃ cs, nx.callee_names = Except.ok cs ∧
    ("require" ∈ cs ∨ "assert" ∈ cs)) ∧
  ∃ s, nx.source_code = Except.ok s ∧
    (containsSub (toLowerStr s) "success" = true ∨
     containsSub (toLowerStr s) "ok" = true)

/-- A successor calling `require` whose text contains no success flag, but
whose word `token` contains the letters `ok`. -/
def succC9 : Succ :=
  ⟨Except.ok ["require"], Except.ok "require(token.balanceOf(x) > 0)"⟩

/-- A transfer instruction followed by `succC9`. -/
def insC9 : Instruction :=
  ⟨["transfer"], Except.ok [amtC4t], Except.ok none, Except.ok [succC9]⟩

/-- A successor whose `callee_names()` read raises. -/
def succC9bad : Succ := ⟨Except.error (), Except.ok "transfer(to, amount)"⟩

/-- A genuine revert guard: a successor calling `require` on a success
flag. -/
def succC9ok : Succ := ⟨Except.ok ["require"], Except.ok "require(success)"⟩

/-- A transfer instruction whose first successor's callee names cannot be
read and whose second successor is a genuine revert guard. -/
def insC9x : Instruction :=
  ⟨["transfer"], Except.ok [amtC4t], Except.ok none,
   Except.ok [succC9bad, succC9ok]⟩

/-- An amount expression written `type(uint256).max - fee`. -/
def amtC10 : Expr :=
  ⟨Except.ok "type(uint256).max - fee", Except.ok [], some (Except.ok true)⟩

/-- A transfer instruction whose amount is `type(uint256).max - fee`. -/
def insC10 : Instruction :=
  ⟨["transfer"], Except.ok [amtC10], Except.ok none, Except.ok []⟩

/-! ## Helper lemmas -/

/-- The dataflow scan returns `true` (vulnerable) exactly when no visited
point passes the loop's reserve-check test. -/
theorem reserve_df_scan_eq (pts : List DFPoint) :
    reserve_df_scan pts = !pts.any reserve_point_hit := by
  induction pts with
  | nil => rfl
  | cons pt rest ih =>
    cases hsc : pt.source_code with
    | error e =>
      simp [reserve_df_scan, reserve_point_hit, hsc, ih]
    | ok s =>
      by_cases hcond :
          ((reserve_check_patterns.any
            (fun pat => containsSub (toLowerStr s) (toLowerStr pat))) &&
           (containsSub s "address(this)" || containsSub s "this")) = true
      · simp [reserve_df_scan, reserve_point_hit, hsc, hcond]
      · simp [reserve_df_scan, reserve_point_hit, hsc, hcond, ih]

/-- Unfolding of the per-point reserve-check test. -/
theorem reserve_point_hit_iff (pt : DFPoint) :
    reserve_point_hit pt = true ↔
      ∃ s, pt.source_code = Except.ok s ∧
        (reserve_check_patterns.any
          (fun pat => containsSub (toLowerStr s) (toLowerStr pat))) = true ∧
        (containsSub s "address(this)" || containsSub s "this") = true := by
  cases hsc : pt.source_code with
  | error e => simp [reserve_point_hit, hsc]
  | ok s => simp [reserve_point_hit, hsc]

/-- Splitting a decomposition of `hd :: tl` into a scanned prefix satisfying
`R` and a stopping element satisfying `B`: the head stops, or the head is
scanned past and the tail decomposes. -/
theorem exists_scan_decomp_cons {α : Type} {R B : α → Prop} {hd : α}
    {tl : List α} :
    (∃ pre nx post, hd :: tl = pre ++ nx :: post ∧
      (∀ p ∈ pre, R p) ∧ B nx) ↔
      B hd ∨ (R hd ∧ ∃ pre nx post, tl = pre ++ nx :: post ∧
        (∀ p ∈ pre, R p) ∧ B nx) := by
  constructor
  · rintro ⟨pre, nx, post, heq, hR, hB⟩
    cases pre with
    | nil =>
      rw [List.nil_append] at heq
      injection heq with h1 h2
      subst h1
      exact Or.inl hB
    | cons q pre2 =>
      rw [List.cons_append] at heq
      injection heq with h1 h2
      subst h1
      exact Or.inr ⟨hR hd (List.mem_cons_self hd pre2),
        pre2, nx, post, h2, fun p hp => hR p (List.mem_cons_of_mem hd hp),
        hB⟩
  · rintro (hB | ⟨hRhd, pre, nx, post, heq, hR, hB⟩)
    · exact ⟨[], hd, tl, rfl, by simp, hB⟩
    · refine ⟨hd :: pre, nx, post, by rw [List.cons_append, heq], ?_, hB⟩
      intro p hp
      rcases List.mem_cons.mp hp with h | h
      · exact h ▸ hRhd
      · exact hR p h

/-- The successor scan returns `true` exactly when the successor list splits
into a scanned prefix of successors with readable callee names followed by a
successor that calls `require` or `assert` and has readable source text
whose lowercased form contains `success` or `ok`. -/
theorem revert_guard_scan_true_iff (l : List Succ) :
    revert_guard_scan l = true ↔
      ∃ pre nx post, l = pre ++ nx :: post ∧
        (∀ p ∈ pre, succ_names_readable p) ∧ succ_guard_stop nx := by
  induction l with
  | nil =>
    refine ⟨fun h => by simp [revert_guard_scan] at h, fun h => ?_⟩
    obtain ⟨pre, nx, post, heq, -, -⟩ := h
    exact absurd heq.symm (by simp)
  | cons hd tl ih =>
    rw [exists_scan_decomp_cons (α := Succ) (R := succ_names_readable)
        (B := succ_guard_stop), ← ih]
    simp only [succ_names_readable, succ_guard_stop]
    cases hcn : hd.callee_names with
    | error e =>
      have hscan : revert_guard_scan (hd :: tl) = false := by
        simp [revert_guard_scan, hcn]
      rw [hscan]
      constructor
      · intro h; simp at h
      · rintro (⟨⟨cs, hcs, -⟩, -⟩ | ⟨⟨cs, hcs⟩, -⟩) <;> simp at hcs
    | ok cs =>
      by_cases hra : (cs.contains "require" || cs.contains "assert") = true
      · cases hsc : hd.source_code with
        | error e2 =>
          have hscan :
              revert_guard_scan (hd :: tl) = revert_guard_scan tl := by
            simp only [revert_guard_scan, hcn, hsc]
            rw [if_pos hra]
          rw [hscan]
          constructor
          · intro h
            exact Or.inr ⟨⟨cs, rfl⟩, h⟩
          · rintro (⟨-, s, hs, -⟩ | ⟨-, h⟩)
            · simp at hs
            · exact h
        | ok s =>
          by_cases hok : (containsSub (toLowerStr s) "success" ||
              containsSub (toLowerStr s) "ok") = true
          · have hscan : revert_guard_scan (hd :: tl) = true := by
              simp only [revert_guard_scan, hcn, hsc]
              rw [if_pos hra, if_pos hok]
            rw [hscan]
            refine iff_of_true rfl (Or.inl ⟨⟨cs, rfl, ?_⟩, ⟨s, rfl, ?_⟩⟩)
            · simpa using hra
            · simpa using hok
          · have hscan :
                revert_guard_scan (hd :: tl) = revert_guard_scan tl := by
              simp only [revert_guard_scan, hcn, hsc]
              rw [if_pos hra, if_neg hok]
            rw [hscan]
            constructor
            · intro h
              exact Or.inr ⟨⟨cs, rfl⟩, h⟩
            · rintro (⟨-, s2, hs2, hsok⟩ | ⟨-, h⟩)
              · injection hs2 with h2
                subst h2
                exact absurd (by rcases hsok with h1 | h1 <;> simp [h1]) hok
              · exact h
      · have hscan :
            revert_guard_scan (hd :: tl) = revert_guard_scan tl := by
          simp only [revert_guard_scan, hcn]
          rw [if_neg hra]
        rw [hscan]
        constructor
        · intro h
          exact Or.inr ⟨⟨cs, rfl⟩, h⟩
        · rintro (⟨⟨cs2, hcs2, hmem⟩, -⟩ | ⟨-, h⟩)
          · injection hcs2 with h2
            subst h2
            exact absurd (by rcases hmem with h1 | h1 <;> simp [h1]) hra
          · exact h

/-- A truncation to a smaller cap is an initial segment of a truncation of
the same list to a larger cap. -/
theorem listPre_take_le {l : List α} {n m : Nat} (h : n ≤ m) :
    listPre (l.take n) (l.take m) := by
  refine ⟨(l.take m).drop n, ?_⟩
  have h1 : (l.take m).take n = l.take n := by
    rw [List.take_take, Nat.min_eq_left h]
  rw [← h1, List.take_append_drop]

/-- Filtering preserves initial segments. -/
theorem listPre_filter (p : α → Bool) {l1 l2 : List α} (h : listPre l1 l2) :
    listPre (l1.filter p) (l2.filter p) := by
  obtain ⟨t, rfl⟩ := h
  exact ⟨t.filter p, (List.filter_append ..).symm⟩

/-- Flattening preserves initial segments. -/
theorem listPre_flatMap (f : α → List β) {l1 l2 : List α}
    (h : listPre l1 l2) : listPre (l1.flatMap f) (l2.flatMap f) := by
  obtain ⟨t, rfl⟩ := h
  exact ⟨t.flatMap f, (List.flatMap_append l1 t f).symm⟩

/-- Truncating an initial segment to a smaller cap yields an initial segment
of the longer list truncated to a larger cap. -/
theorem listPre_take {l1 l2 : List α} (h : listPre l1 l2) {n m : Nat}
    (hnm : n ≤ m) : listPre (l1.take n) (l2.take m) := by
  obtain ⟨t, rfl⟩ := h
  obtain ⟨s, hs⟩ := listPre_take_le (l := l1) hnm
  refine ⟨s ++ t.take (m - l1.length), ?_⟩
  rw [List.take_append_eq_append_take, ← List.append_assoc, hs]

/-- An initial segment is a subset. -/
theorem listPre_subset {l1 l2 : List α} (h : listPre l1 l2) : l1 ⊆ l2 := by
  obtain ⟨t, rfl⟩ := h
  exact List.subset_append_left l1 t

/-- Every instruction in the pipeline's final set passed the vulnerability
filter and the false-positive filter. -/
theorem mem_queryWith_flags {c : Contract} {capC capI : Nat}
    {ins : Instruction} (h : ins ∈ queryWith c capC capI) :
    (lacks_reserve_check ins && has_global_df_in_amount ins) = true ∧
    (!is_protected_by_safe_wrapper ins &&
     !has_post_transfer_revert_guard ins &&
     !is_amount_constant_zero ins) = true := by
  simp only [queryWith] at h
  have h1 := List.mem_filter.mp h
  have h2 := List.mem_filter.mp h1.1
  exact ⟨h2.2, h1.2⟩

/-! ## Claim theorems -/

/-- C2: for every instruction with zero arguments, `lacks_reserve_check`
returns `False` and `has_global_df_in_amount` returns `False`, and
consequently such an instruction never appears in the final finding set
returned by `query`. -/
theorem zero_argument_instruction_inert (c : Contract) (ins : Instruction)
    (h : ins.get_args = Except.ok []) :
    lacks_reserve_check ins = false ∧ has_global_df_in_amount ins = false ∧
    ins ∉ query c := by
  have hl : lacks_reserve_check ins = false := by
    simp [lacks_reserve_check, h]
  have hg : has_global_df_in_amount ins = false := by
    simp [has_global_df_in_amount, h]
  refine ⟨hl, hg, fun hmem => ?_⟩
  have hflags :=
    (mem_queryWith_flags (show ins ∈ queryWith c 500 1000 from hmem)).1
  rw [hl] at hflags
  simp at hflags

/-- C2 witness: the zero-argument instruction `insC2` in the contract
`ctrC2`. -/
theorem zero_argument_instruction_inert_witness :
    lacks_reserve_check insC2 = false ∧
    has_global_df_in_amount insC2 = false ∧ insC2 ∉ query ctrC2 :=
  zero_argument_instruction_inert ctrC2 insC2 rfl

/-- C3: when `get_args` raises, or the backward dataflow trace on the amount
raises, `lacks_reserve_check` returns `True` (fail-closed); and a failure
while reading an individual dataflow point's source only skips that point,
leaving the scan result over the remaining points unchanged. -/
theorem lacks_reserve_check_fail_closed :
    (∀ ins : Instruction, ins.get_args = Except.error () →
      lacks_reserve_check ins = true) ∧
    (∀ (ins : Instruction) (args : List Expr) (amt : Expr),
      ins.get_args = Except.ok args → args.getLast? = some amt →
      amt.backward_df = Except.error () → lacks_reserve_check ins = true) ∧
    (∀ (pre post : List DFPoint) (bad : DFPoint),
      bad.source_code = Except.error () →
      reserve_df_scan (pre ++ bad :: post) = reserve_df_scan (pre ++ post)) := by
  refine ⟨fun ins h => ?_, fun ins args amt h1 h2 h3 => ?_,
    fun pre post bad hbad => ?_⟩
  · simp [lacks_reserve_check, h]
  · simp [lacks_reserve_check, h1, h2, h3]
  · have hhit : reserve_point_hit bad = false := by
      simp [reserve_point_hit, hbad]
    rw [reserve_df_scan_eq, reserve_df_scan_eq]
    simp [List.any_append, hhit]

/-- C3 witness: an instruction whose `get_args` raises, an instruction whose
backward trace raises, and a scan in which an unreadable point is skipped. -/
theorem lacks_reserve_check_fail_closed_witness :
    lacks_reserve_check insC3a = true ∧ lacks_reserve_check insC3b = true ∧
    reserve_df_scan [ptC3ok, ptC3bad] = reserve_df_scan [ptC3ok] :=
  ⟨lacks_reserve_check_fail_closed.1 insC3a rfl,
   lacks_reserve_check_fail_closed.2.1 insC3b [amtC3] amtC3 rfl rfl rfl,
   lacks_reserve_check_fail_closed.2.2 [ptC3ok] [] ptC3bad rfl⟩

/-- C4: for an instruction with at least one argument,
`has_global_df_in_amount` returns `True` when the taint capability is
absent, `True` when the taint query raises, and exactly the host-reported
status otherwise (so `False` only when the host affirmatively reports the
amount as constant-derived); it also returns `True` when `get_args`
raises. -/
theorem has_global_df_in_amount_characterization :
    (∀ (ins : Instruction) (args : List Expr) (amt : Expr),
      ins.get_args = Except.ok args → args.getLast? = some amt →
      (amt.has_global_df = none → has_global_df_in_amount ins = true) ∧
      (amt.has_global_df = some (Except.error ()) →
        has_global_df_in_amount ins = true) ∧
      (∀ b : Bool, amt.has_global_df = some (Except.ok b) →
        has_global_df_in_amount ins = b)) ∧
    (∀ ins : Instruction, ins.get_args = Except.error () →
      has_global_df_in_amount ins = true) := by
  refine ⟨fun ins args amt h1 h2 => ?_, fun ins h => ?_⟩
  · refine ⟨fun h3 => ?_, fun h3 => ?_, fun b h3 => ?_⟩ <;>
      simp [has_global_df_in_amount, h1, h2, h3]
  · simp [has_global_df_in_amount, h]

/-- C4 witness: the four taint statuses on concrete instructions. -/
theorem has_global_df_in_amount_characterization_witness :
    has_global_df_in_amount insC4n = true ∧
    has_global_df_in_amount insC4e = true ∧
    has_global_df_in_amount insC4f = false ∧
    has_global_df_in_amount insC4t = true :=
  ⟨(has_global_df_in_amount_characterization.1 insC4n [amtC4n] amtC4n
      rfl rfl).1 rfl,
   (has_global_df_in_amount_characterization.1 insC4e [amtC4e] amtC4e
      rfl rfl).2.1 rfl,
   (has_global_df_in_amount_characterization.1 insC4f [amtC4f] amtC4f
      rfl rfl).2.2 false rfl,
   (has_global_df_in_amount_characterization.1 insC4t [amtC4t] amtC4t
      rfl rfl).2.2 true rfl⟩

/-- C5: an instruction whose amount's literal source text is exactly `0` has
`is_amount_constant_zero = True` and is excluded from the final finding set;
if reading the literal raises, `is_amount_constant_zero` returns `False`
(the finding is kept). -/
theorem constant_zero_amount_excluded :
    (∀ (c : Contract) (ins : Instruction) (args : List Expr) (amt : Expr),
      ins.get_args = Except.ok args → args.getLast? = some amt →
      amt.source_code = Except.ok "0" →
      is_amount_constant_zero ins = true ∧ ins ∉ query c) ∧
    (∀ (ins : Instruction) (args : List Expr) (amt : Expr),
      ins.get_args = Except.ok args → args.getLast? = some amt →
      amt.source_code = Except.error () →
      is_amount_constant_zero ins = false) := by
  refine ⟨fun c ins args amt h1 h2 h3 => ?_, fun ins args amt h1 h2 h3 => ?_⟩
  · have hz : is_amount_constant_zero ins = true := by
      simp only [is_amount_constant_zero, h1, h2, h3]
      decide
    refine ⟨hz, fun hmem => ?_⟩
    have hflags :=
      (mem_queryWith_flags (show ins ∈ queryWith c 500 1000 from hmem)).2
    rw [hz] at hflags
    simp at hflags
  · simp [is_amount_constant_zero, h1, h2, h3]

/-- C5 witness: a `transfer(to, 0)`-style instruction and an instruction
whose amount literal cannot be read. -/
theorem constant_zero_amount_excluded_witness :
    (is_amount_constant_zero insC5 = true ∧ insC5 ∉ query ctrC5) ∧
    is_amount_constant_zero insC5e = false :=
  ⟨constant_zero_amount_excluded.1 ctrC5 insC5 [amtC5] amtC5 rfl rfl rfl,
   constant_zero_amount_excluded.2 insC5e [amtC5e] amtC5e rfl rfl rfl⟩

/-- C6: an instruction whose owning function's name case-insensitively
contains a safe-wrapper pattern has `is_protected_by_safe_wrapper = True`
and is excluded from the final finding set; when the owning function is
`None` or `get_parent` raises, the check returns `False` (the finding is
not excluded by it). -/
theorem safe_wrapper_excluded :
    (∀ (c : Contract) (ins : Instruction) (meta : FunMeta),
      ins.get_parent = Except.ok (some meta) →
      (safe_patterns.any
        (fun pat => containsSub (toLowerStr meta.name) pat)) = true →
      is_protected_by_safe_wrapper ins = true ∧ ins ∉ query c) ∧
    (∀ ins : Instruction, ins.get_parent = Except.ok none →
      is_protected_by_safe_wrapper ins = false) ∧
    (∀ ins : Instruction, ins.get_parent = Except.error () →
      is_protected_by_safe_wrapper ins = false) := by
  refine ⟨fun c ins meta h1 h2 => ?_, fun ins h => ?_, fun ins h => ?_⟩
  · have hp : is_protected_by_safe_wrapper ins = true := by
      simp only [is_protected_by_safe_wrapper, h1]
      exact h2
    refine ⟨hp, fun hmem => ?_⟩
    have hflags :=
      (mem_queryWith_flags (show ins ∈ queryWith c 500 1000 from hmem)).2
    rw [hp] at hflags
    simp at hflags
  · simp [is_protected_by_safe_wrapper, h]
  · simp [is_protected_by_safe_wrapper, h]

/-- C6 witness: an instruction inside `safeTransferHelper`, one with no
owning function, and one whose `get_parent` raises. -/
theorem safe_wrapper_excluded_witness :
    (is_protected_by_safe_wrapper insC6 = true ∧ insC6 ∉ query ctrC6) ∧
    is_protected_by_safe_wrapper insC6n = false ∧
    is_protected_by_safe_wrapper insC6e = false :=
  ⟨safe_wrapper_excluded.1 ctrC6 insC6 metaC6 rfl (by decide),
   safe_wrapper_excluded.2.1 insC6n rfl,
   safe_wrapper_excluded.2.2 insC6e rfl⟩

/-- C10: for an instruction with a readable amount literal `s`,
`is_amount_constant_zero` returns `True` exactly when `s` stripped of
surrounding whitespace equals `0` or `s` contains the substring
`uint256).max` anywhere. -/
theorem is_amount_constant_zero_characterization
    (ins : Instruction) (args : List Expr) (amt : Expr) (s : String)
    (h1 : ins.get_args = Except.ok args) (h2 : args.getLast? = some amt)
    (h3 : amt.source_code = Except.ok s) :
    is_amount_constant_zero ins =
      (trimStr s == "0" || containsSub s "uint256).max") := by
  simp [is_amount_constant_zero, h1, h2, h3]

/-- C10 witness: the amount `type(uint256).max - fee` is excluded even
though it does not denote the maximum sentinel itself. -/
theorem is_amount_constant_zero_characterization_witness :
    is_amount_constant_zero insC10 = true :=
  (is_amount_constant_zero_characterization insC10 [amtC10] amtC10
    "type(uint256).max - fee" rfl rfl rfl).trans (by decide)

/-- C1 counterexample: the instruction `insC1` has one argument, its
backward trace is computable and visits only the point
`getBalance(smoothish)` — a reserve-vocabulary match whose only occurrence
of `this` is a fragment of the arbitrary identifier `smoothish`, so no
visited point refers to the contract's own identity — yet
`lacks_reserve_check` returns `False`, refuting the claimed
biconditional. -/
theorem lacks_reserve_check_self_reference_counterexample :
    insC1.get_args = Except.ok [amtC1] ∧
    amtC1.backward_df = Except.ok [ptC1] ∧
    ¬ (lacks_reserve_check insC1 = false ↔
        ∃ pt ∈ [ptC1], spec_qualifying_point pt = true) := by
  decide

/-- C1 (amended): for an instruction with at least one argument whose
backward trace on the amount is computable, `lacks_reserve_check` returns
`False` if and only if some visited point with readable source text has a
lowercased text containing one of the reserve vocabulary and an original
text containing `address(this)` or the bare substring `this` anywhere
(also inside a longer identifier). -/
theorem lacks_reserve_check_false_iff
    (ins : Instruction) (args : List Expr) (amt : Expr) (pts : List DFPoint)
    (h1 : ins.get_args = Except.ok args) (h2 : args.getLast? = some amt)
    (h3 : amt.backward_df = Except.ok pts) :
    lacks_reserve_check ins = false ↔
      ∃ pt ∈ pts, ∃ s, pt.source_code = Except.ok s ∧
        (reserve_check_patterns.any
          (fun pat => containsSub (toLowerStr s) (toLowerStr pat))) = true ∧
        (containsSub s "address(this)" || containsSub s "this") = true := by
  have hdef : lacks_reserve_check ins = reserve_df_scan pts := by
    simp [lacks_reserve_check, h1, h2, h3]
  rw [hdef, reserve_df_scan_eq]
  simp only [Bool.not_eq_false', List.any_eq_true, reserve_point_hit_iff]

/-- C1 (amended) witness: a trace visiting
`require(token.balanceOf(address(this)) >= amount)` makes
`lacks_reserve_check` return `False`. -/
theorem lacks_reserve_check_false_iff_witness :
    lacks_reserve_check insC1w = false :=
  (lacks_reserve_check_false_iff insC1w [amtC1w] amtC1w [ptC1w]
      rfl rfl rfl).mpr
    ⟨ptC1w, by decide,
     "require(token.balanceOf(address(this)) >= amount)", rfl,
     by decide, by decide⟩

/-- C7: enlarging the candidate cap and the instruction cap can only add
findings — the final set produced with smaller caps is contained in the one
produced with larger caps, over the same contract. -/
theorem query_monotone_under_caps (c : Contract) (n1 n2 m1 m2 : Nat)
    (hn : n1 ≤ n2) (hm : m1 ≤ m2) :
    queryWith c n1 m1 ⊆ queryWith c n2 m2 := by
  have hc : listPre (candidate_functions c n1) (candidate_functions c n2) := by
    simp only [candidate_functions, execCap]
    exact listPre_take_le hn
  have hi : listPre (instructionsOf (candidate_functions c n1))
      (instructionsOf (candidate_functions c n2)) := by
    simp only [instructionsOf]
    exact listPre_flatMap Func.instructions hc
  have ht : listPre
      ((instructionsOf (candidate_functions c n1)).take m1)
      ((instructionsOf (candidate_functions c n2)).take m2) :=
    listPre_take hi hm
  have h1 := listPre_filter is_outflow ht
  have h2 := listPre_filter
    (fun ins => lacks_reserve_check ins && has_global_df_in_amount ins) h1
  have h3 := listPre_filter
    (fun ins => !is_protected_by_safe_wrapper ins &&
      !has_post_transfer_revert_guard ins &&
      !is_amount_constant_zero ins) h2
  simpa only [queryWith, execCap] using listPre_subset h3

/-- C7 witness: the finding `insC7`, produced already at caps 1 and 1 on
`ctrC7`, is still produced at the source's caps 500 and 1000. -/
theorem query_monotone_under_caps_witness :
    insC7 ∈ queryWith ctrC7 500 1000 :=
  query_monotone_under_caps ctrC7 1 500 1 1000 (by decide) (by decide)
    (show insC7 ∈ queryWith ctrC7 1 1 by decide)

/-- C9 counterexample: on `insC9x` the successors enumerate successfully
and the second successor, `require(success)`, satisfies the claimed
per-successor condition, yet `has_post_transfer_revert_guard` returns
`False`, because reading the first successor's callee names raises into
the outer `try` and aborts the scan — refuting the claimed
biconditional. -/
theorem has_post_transfer_revert_guard_abort_counterexample :
    insC9x.next_instructions = Except.ok [succC9bad, succC9ok] ∧
    claimed_guard_succ succC9ok = true ∧
    ¬ (has_post_transfer_revert_guard insC9x = true ↔
        ∃ nx ∈ [succC9bad, succC9ok], claimed_guard_succ nx = true) := by
  decide

/-- C9 (amended): `has_post_transfer_revert_guard` returns `True` exactly
when the successors can be enumerated and the successor list splits into a
prefix of successors whose callee names are all readable followed by a
successor that calls `require` or `assert` and has readable source text
whose lowercased form contains `success` or `ok` (so any word containing
`ok` qualifies); a failure to enumerate the successors, or to read a
successor's callee names before a qualifying successor is reached, yields
`False` (finding kept).  In particular the successor
`require(token.balanceOf(x) > 0)` qualifies, because `token` contains the
letters `ok`. -/
theorem has_post_transfer_revert_guard_characterization :
    (∀ ins : Instruction, has_post_transfer_revert_guard ins = true ↔
      ∃ succs, ins.next_instructions = Except.ok succs ∧
        ∃ pre nx post, succs = pre ++ nx :: post ∧
          (∀ p ∈ pre, ∃ cs, p.callee_names = Except.ok cs) ∧
          ((∃ cs, nx.callee_names = Except.ok cs ∧
              ("require" ∈ cs ∨ "assert" ∈ cs)) ∧
           ∃ s, nx.source_code = Except.ok s ∧
             (containsSub (toLowerStr s) "success" = true ∨
              containsSub (toLowerStr s) "ok" = true))) ∧
    has_post_transfer_revert_guard insC9 = true := by
  constructor
  · intro ins
    cases hni : ins.next_instructions with
    | error e => simp [has_post_transfer_revert_guard, hni]
    | ok succs =>
      have hbase := revert_guard_scan_true_iff succs
      simp only [succ_names_readable, succ_guard_stop] at hbase
      simp only [has_post_transfer_revert_guard, hni]
      constructor
      · intro h
        exact ⟨succs, rfl, hbase.mp h⟩
      · rintro ⟨succs2, heq, h⟩
        injection heq with h2
        subst h2
        exact hbase.mpr h
  · decide

/-- C8: the candidate-selection stage returns exactly the functions that are
public or external, not pure and not view, carry none of the modifiers
`onlyOwner`, `nonReentrant`, `whenNotPaused`, `lock`, have a name in the
configured withdrawal/mint/redeem vocabulary and declare a `uint256`
parameter — truncated at 500 functions. -/
theorem candidate_selection_characterization (c : Contract) :
    candidate_functions c 500 =
      (c.functions.filter (fun f =>
        (f.visibility == Visibility.Public ||
         f.visibility == Visibility.External) &&
        !(f.is_pure || f.is_view) &&
        !(f.modifier_names.any
            (fun m => guard_modifier_names.contains m)) &&
        candidate_name_vocabulary.contains f.name &&
        f.arg_types.contains "uint256")).take 500 := by
  simp only [candidate_functions, with_arg_type, with_one_of_the_names,
    without_modifier_names, without_properties, with_one_property, execCap,
    List.filter_filter]
  congr 1
  apply List.filter_congr
  intro f _
  simp only [hasProp, List.any_cons, List.any_nil, Bool.or_false]
  simp [Bool.and_assoc, Bool.and_comm, Bool.and_left_comm]

end ProtocolInsolvency
